import Mathlib

/-!
Verification of the fetch-orchestration subsystem of the Stcoks repository
(`src/data/fetch_data.py`): provider selection and fallback, schema
normalization, cache key construction and TTL handling.

The Python module is shallowly embedded:
* pandas DataFrames become `DF` (a list of column names plus rows of an
  index value and optional integer cells; cell arithmetic is never used by
  the module, only movement, nullness and comparison of cells);
* Python string methods `strip`, `title`, `lower`, `upper` are modelled
  character-by-character over ASCII (`pyStrip`, `pyTitle`, `pyLower`,
  `pyUpper`);
* the network, the clock and `yfinance`/`requests` responses are oracles
  collected in `Env`;
* exceptions become `Except PyError`, the module-level cache dictionary
  becomes an association list inside `St`, and DataFrame object identity
  (needed for the defensive-copy behaviour of the cache) is modelled by a
  heap of DataFrames addressed by natural-number references;
* emitted side effects (HTTP requests, the fallback warning print) are
  collected in a trace of `Event`s.
-/

/-! ## Character-level model of Python string methods (ASCII fragment) -/

/-- ASCII lowercase letter test (`a`..`z`), as used by `str.title`/`str.upper`. -/
def isLowerA (c : Char) : Bool := decide (97 ≤ c.toNat ∧ c.toNat ≤ 122)

/-- ASCII uppercase letter test (`A`..`Z`). -/
def isUpperA (c : Char) : Bool := decide (65 ≤ c.toNat ∧ c.toNat ≤ 90)

/-- ASCII cased-character test; Python's `str.title` upcases a cased character
that follows a non-cased one and downcases the rest. -/
def isAlphaA (c : Char) : Bool := isLowerA c || isUpperA c

/-- Python whitespace stripped by `str.strip()` (ASCII fragment:
space, tab, newline, carriage return, vertical tab, form feed). -/
def isSpaceA (c : Char) : Bool :=
  decide (c.toNat = 32 ∨ c.toNat = 9 ∨ c.toNat = 10 ∨ c.toNat = 13 ∨ c.toNat = 11 ∨ c.toNat = 12)

/-- Uppercase an ASCII letter, leave everything else unchanged. -/
def upA (c : Char) : Char := if isLowerA c then Char.ofNat (c.toNat - 32) else c

/-- Lowercase an ASCII letter, leave everything else unchanged. -/
def downA (c : Char) : Char := if isUpperA c then Char.ofNat (c.toNat + 32) else c

theorem charToNat_ofNat (n : Nat) (h : Nat.isValidChar n) : (Char.ofNat n).toNat = n := by
  simp [Char.ofNat, h, Char.ofNatAux, Char.toNat, UInt32.toNat, BitVec.toNat_ofNatLt]

theorem upA_toNat {c : Char} (h : isLowerA c = true) : (upA c).toNat = c.toNat - 32 := by
  have hb : 97 ≤ c.toNat ∧ c.toNat ≤ 122 := of_decide_eq_true h
  unfold upA
  rw [if_pos h]
  exact charToNat_ofNat _ (Or.inl (by omega))

theorem downA_toNat {c : Char} (h : isUpperA c = true) : (downA c).toNat = c.toNat + 32 := by
  have hb : 65 ≤ c.toNat ∧ c.toNat ≤ 90 := of_decide_eq_true h
  unfold downA
  rw [if_pos h]
  exact charToNat_ofNat _ (Or.inl (by omega))

theorem upA_eq_self {c : Char} (h : isLowerA c = false) : upA c = c := by
  simp [upA, h]

theorem downA_eq_self {c : Char} (h : isUpperA c = false) : downA c = c := by
  simp [downA, h]

theorem isAlphaA_upA (c : Char) : isAlphaA (upA c) = isAlphaA c := by
  by_cases h : isLowerA c = true
  · have hb : 97 ≤ c.toNat ∧ c.toNat ≤ 122 := of_decide_eq_true h
    have ht := upA_toNat h
    have h1 : isUpperA (upA c) = true := by
      simp only [isUpperA, decide_eq_true_eq, ht]; omega
    simp [isAlphaA, h1, h]
  · rw [upA_eq_self (by simpa using h)]

theorem isAlphaA_downA (c : Char) : isAlphaA (downA c) = isAlphaA c := by
  by_cases h : isUpperA c = true
  · have hb : 65 ≤ c.toNat ∧ c.toNat ≤ 90 := of_decide_eq_true h
    have ht := downA_toNat h
    have h1 : isLowerA (downA c) = true := by
      simp only [isLowerA, decide_eq_true_eq, ht]; omega
    simp [isAlphaA, h1, h]
  · rw [downA_eq_self (by simpa using h)]

theorem upA_upA (c : Char) : upA (upA c) = upA c := by
  by_cases h : isLowerA c = true
  · have hb : 97 ≤ c.toNat ∧ c.toNat ≤ 122 := of_decide_eq_true h
    have ht := upA_toNat h
    have h1 : isLowerA (upA c) = false := by
      simp only [isLowerA, decide_eq_false_iff_not, ht]; omega
    exact upA_eq_self h1
  · have h' : upA c = c := upA_eq_self (by simpa using h)
    simp [h']

theorem downA_downA (c : Char) : downA (downA c) = downA c := by
  by_cases h : isUpperA c = true
  · have hb : 65 ≤ c.toNat ∧ c.toNat ≤ 90 := of_decide_eq_true h
    have ht := downA_toNat h
    have h1 : isUpperA (downA c) = false := by
      simp only [isUpperA, decide_eq_false_iff_not, ht]; omega
    exact downA_eq_self h1
  · have h' : downA c = c := downA_eq_self (by simpa using h)
    simp [h']

theorem isSpaceA_upA (c : Char) : isSpaceA (upA c) = isSpaceA c := by
  by_cases h : isLowerA c = true
  · have hb : 97 ≤ c.toNat ∧ c.toNat ≤ 122 := of_decide_eq_true h
    have ht := upA_toNat h
    have h1 : isSpaceA (upA c) = false := by
      simp only [isSpaceA, decide_eq_false_iff_not, ht]; omega
    have h2 : isSpaceA c = false := by
      simp only [isSpaceA, decide_eq_false_iff_not]; omega
    rw [h1, h2]
  · rw [upA_eq_self (by simpa using h)]

theorem isSpaceA_downA (c : Char) : isSpaceA (downA c) = isSpaceA c := by
  by_cases h : isUpperA c = true
  · have hb : 65 ≤ c.toNat ∧ c.toNat ≤ 90 := of_decide_eq_true h
    have ht := downA_toNat h
    have h1 : isSpaceA (downA c) = false := by
      simp only [isSpaceA, decide_eq_false_iff_not, ht]; omega
    have h2 : isSpaceA c = false := by
      simp only [isSpaceA, decide_eq_false_iff_not]; omega
    rw [h1, h2]
  · rw [downA_eq_self (by simpa using h)]

/-! ## `str.strip()` -/

/-- Drop leading Python whitespace. -/
def stripFront (l : List Char) : List Char := l.dropWhile isSpaceA

/-- Drop trailing Python whitespace. -/
def dropEnd (l : List Char) : List Char := (l.reverse.dropWhile isSpaceA).reverse

/-- Character-list model of Python `str.strip()`. -/
def stripList (l : List Char) : List Char := dropEnd (stripFront l)

/-- Model of Python `str.strip()`. -/
def pyStrip (s : String) : String := String.mk (stripList s.data)

theorem dropWhile_dropWhile {α : Type} (p : α → Bool) (l : List α) :
    List.dropWhile p (List.dropWhile p l) = List.dropWhile p l := by
  induction l with
  | nil => rfl
  | cons c cs ih =>
    by_cases h : p c = true
    · simp [List.dropWhile_cons, h, ih]
    · simp [List.dropWhile_cons, h]

theorem dropWhile_eq_self_of_head {α : Type} {p : α → Bool} {l : List α}
    (h : ∀ c, l.head? = some c → p c = false) : List.dropWhile p l = l := by
  cases l with
  | nil => rfl
  | cons c cs => simp [List.dropWhile_cons, h c rfl]

theorem head_false_of_dropWhile_eq_self {α : Type} {p : α → Bool} {l : List α}
    (h : List.dropWhile p l = l) : ∀ c, l.head? = some c → p c = false := by
  intro c hc
  cases l with
  | nil => simp at hc
  | cons d ds =>
    have hd : d = c := by simpa using hc
    subst hd
    by_cases hp : p d = true
    · exfalso
      rw [List.dropWhile_cons, if_pos hp] at h
      have hs := (@List.dropWhile_suffix _ ds p).length_le
      rw [h] at hs
      simp at hs
    · simpa using hp

theorem stripFront_dropEnd {l : List Char} (h : stripFront l = l) :
    stripFront (dropEnd l) = dropEnd l := by
  apply dropWhile_eq_self_of_head
  intro c hc
  obtain ⟨t, ht⟩ := @List.dropWhile_suffix _ l.reverse isSpaceA
  have hl : l = dropEnd l ++ t.reverse := by
    have h2 := congrArg List.reverse ht
    simpa [dropEnd, List.reverse_append] using h2.symm
  have hhd : l.head? = some c := by
    rw [hl]
    cases hde : dropEnd l with
    | nil => rw [hde] at hc; simp at hc
    | cons x xs =>
      rw [hde] at hc
      simp at hc
      simp [hc]
  exact head_false_of_dropWhile_eq_self h c hhd

theorem dropEnd_dropEnd (l : List Char) : dropEnd (dropEnd l) = dropEnd l := by
  simp [dropEnd, List.reverse_reverse, dropWhile_dropWhile]

theorem stripList_stripList (l : List Char) : stripList (stripList l) = stripList l := by
  show dropEnd (stripFront (dropEnd (stripFront l))) = dropEnd (stripFront l)
  have f1 : stripFront (stripFront l) = stripFront l := dropWhile_dropWhile _ _
  rw [stripFront_dropEnd f1, dropEnd_dropEnd]

theorem stripList_eq_self_parts {l : List Char} (h : stripList l = l) :
    stripFront l = l ∧ dropEnd l = l := by
  have hlen1 : (stripFront l).length ≤ l.length := (@List.dropWhile_suffix _ l isSpaceA).length_le
  have hlen2 : (stripList l).length ≤ (stripFront l).length := by
    have h3 := (@List.dropWhile_suffix _ (stripFront l).reverse isSpaceA).length_le
    simpa [stripList, dropEnd] using h3
  have hlenEq : (stripFront l).length = l.length := by
    have := congrArg List.length h
    omega
  obtain ⟨t, ht⟩ := @List.dropWhile_suffix _ l isSpaceA
  have htl : t.length = 0 := by
    have := congrArg List.length ht
    simp only [List.length_append] at this
    have h4 : (List.dropWhile isSpaceA l).length = (stripFront l).length := rfl
    omega
  have htnil : t = [] := List.length_eq_zero.mp htl
  have hf : stripFront l = l := by
    show List.dropWhile isSpaceA l = l
    rw [htnil] at ht
    simpa using ht
  refine ⟨hf, ?_⟩
  have : stripList l = dropEnd l := by rw [stripList, hf]
  rw [← this, h]

theorem dropWhile_eq_self_transfer {α : Type} {p : α → Bool} {l l' : List α}
    (hmap : l'.map p = l.map p) (h : List.dropWhile p l = l) :
    List.dropWhile p l' = l' := by
  apply dropWhile_eq_self_of_head
  intro c hc
  have hh : (l'.map p).head? = (l.map p).head? := by rw [hmap]
  rw [List.head?_map, List.head?_map, hc] at hh
  cases hl : l.head? with
  | none => rw [hl] at hh; simp at hh
  | some d =>
    rw [hl] at hh
    simp at hh
    rw [hh]
    exact head_false_of_dropWhile_eq_self h d hl

theorem stripList_eq_self_transfer {l l' : List Char}
    (hmap : l'.map isSpaceA = l.map isSpaceA) (h : stripList l = l) :
    stripList l' = l' := by
  obtain ⟨hf, hb⟩ := stripList_eq_self_parts h
  have hf' : stripFront l' = l' := dropWhile_eq_self_transfer hmap hf
  have hbrev : List.dropWhile isSpaceA l.reverse = l.reverse := by
    have h2 := congrArg List.reverse hb
    simpa [dropEnd] using h2
  have hmaprev : l'.reverse.map isSpaceA = l.reverse.map isSpaceA := by
    rw [List.map_reverse, List.map_reverse, hmap]
  have hbrev' : List.dropWhile isSpaceA l'.reverse = l'.reverse :=
    dropWhile_eq_self_transfer hmaprev hbrev
  have hb' : dropEnd l' = l' := by
    have h3 := congrArg List.reverse hbrev'
    simpa [dropEnd] using h3
  show dropEnd (stripFront l') = l'
  rw [hf', hb']

/-! ## `str.title()`, `str.lower()`, `str.upper()` and Python `or` -/

/-- One character of Python `str.title()`: upcase a cased character after a
non-cased position, downcase a cased character after a cased one. -/
def titleChar (prev : Bool) (c : Char) : Char :=
  if isAlphaA c then (if prev then downA c else upA c) else c

/-- Walk of Python `str.title()`; the flag records whether the previous
character was cased. -/
def pyTitleAux : Bool → List Char → List Char
  | _, [] => []
  | prev, c :: cs => titleChar prev c :: pyTitleAux (isAlphaA c) cs

/-- Model of Python `str.title()`. -/
def pyTitle (s : String) : String := String.mk (pyTitleAux false s.data)

theorem isAlphaA_titleChar (b : Bool) (c : Char) : isAlphaA (titleChar b c) = isAlphaA c := by
  unfold titleChar
  by_cases h : isAlphaA c = true
  · rw [if_pos h]
    cases b
    · simp [isAlphaA_upA]
    · simp [isAlphaA_downA]
  · rw [if_neg h]

theorem titleChar_titleChar (b : Bool) (c : Char) :
    titleChar b (titleChar b c) = titleChar b c := by
  by_cases h : isAlphaA c = true
  · cases b
    · have h1 : titleChar false c = upA c := by simp [titleChar, h]
      rw [h1]
      have h2 : isAlphaA (upA c) = true := by rw [isAlphaA_upA]; exact h
      simp [titleChar, h2, upA_upA]
    · have h1 : titleChar true c = downA c := by simp [titleChar, h]
      rw [h1]
      have h2 : isAlphaA (downA c) = true := by rw [isAlphaA_downA]; exact h
      simp [titleChar, h2, downA_downA]
  · have h1 : titleChar b c = c := by simp [titleChar, h]
    rw [h1, h1]

theorem isSpaceA_titleChar (b : Bool) (c : Char) : isSpaceA (titleChar b c) = isSpaceA c := by
  unfold titleChar
  split_ifs <;> simp [isSpaceA_downA, isSpaceA_upA]

theorem pyTitleAux_idem (b : Bool) (l : List Char) :
    pyTitleAux b (pyTitleAux b l) = pyTitleAux b l := by
  induction l generalizing b with
  | nil => rfl
  | cons c cs ih =>
    simp only [pyTitleAux]
    rw [titleChar_titleChar, isAlphaA_titleChar, ih]

theorem pyTitleAux_map_isSpaceA (b : Bool) (l : List Char) :
    (pyTitleAux b l).map isSpaceA = l.map isSpaceA := by
  induction l generalizing b with
  | nil => rfl
  | cons c cs ih =>
    simp only [pyTitleAux, List.map_cons]
    rw [isSpaceA_titleChar, ih]

/-- Model of Python `str.lower()` (ASCII fragment). -/
def pyLower (s : String) : String := String.mk (s.data.map downA)

/-- Model of Python `str.upper()` (ASCII fragment). -/
def pyUpper (s : String) : String := String.mk (s.data.map upA)

/-- Python `a or b` on strings: the empty string is falsy. -/
def pyOr (a b : String) : String := if a = "" then b else a

/-! ## Cache key (`_cache_key`) -/

/-- Code-point lexicographic comparison of character lists, as Python compares
strings. -/
def charListLt : List Char → List Char → Bool
  | [], [] => false
  | [], _ :: _ => true
  | _ :: _, [] => false
  | a :: as, b :: bs =>
    if a.toNat < b.toNat then true
    else if b.toNat < a.toNat then false
    else charListLt as bs

/-- Python `<` on strings. -/
def strLtB (a b : String) : Bool := charListLt a.data b.data

/-- Stable insertion of a keyword pair into a key-sorted list. -/
def insertPair (x : String × String) : List (String × String) → List (String × String)
  | [] => [x]
  | y :: ys => if strLtB y.1 x.1 then y :: insertPair x ys else x :: y :: ys

/-- Stable sort of keyword pairs by key, modelling Python `sorted(kw.items())`
(the keyword names are distinct, so only the key part matters). -/
def sortPairs : List (String × String) → List (String × String)
  | [] => []
  | x :: xs => insertPair x (sortPairs xs)

/-- `_cache_key(**kw)`: `"|".join(f"{k}={v}" for k, v in sorted(kw.items()))`. -/
def _cache_key (kw : List (String × String)) : String :=
  String.intercalate "|" ((sortPairs kw).map (fun kv => kv.1 ++ "=" ++ kv.2))

/-! ## Errors, events, DataFrames -/

/-- Python exceptions raised by the module. -/
inductive PyError where
  | valueError (msg : String)
  | keyError (msg : String)
  | attributeError (msg : String)
deriving DecidableEq, Repr

/-- `str(e)` for the exceptions above (Python renders `KeyError` arguments
with quotes). -/
def pyMsg : PyError → String
  | .valueError m => m
  | .keyError m => Char.toString (Char.ofNat 39) ++ m ++ Char.toString (Char.ofNat 39)
  | .attributeError m => m

/-- Observable side effects of one `fetch_ohlcv` call: an HTTP request to
Polygon, a `yf.download` call, or the fallback warning print. -/
inductive Event where
  | polygonNet
  | yahooNet
  | warn (msg : String)
deriving DecidableEq, Repr

/-- A pandas index label: either a raw string or an already-parsed datetime
(represented by an integer timestamp). -/
inductive IdxVal where
  | str (s : String)
  | dt (t : Int)
deriving DecidableEq, Repr

/-- `pd.to_datetime` on one index label: identity on datetimes; parsing of raw
strings is modelled by a fixed total function (the claims under study never
depend on how a particular string parses, only on identity and order of the
resulting datetimes). -/
def pdToDatetime : IdxVal → IdxVal
  | .str s => .dt (s.toInt?.getD 0)
  | .dt t => .dt t

/-- A pandas DataFrame: column names plus rows of an index label and one
optional (nullable) cell per column. Prices are represented as integers since
the module never computes with them. -/
structure DF where
  cols : List String
  rows : List (IdxVal × List (Option Int))
deriving DecidableEq, Repr

/-- The empty DataFrame (also the placeholder for a dangling heap read, which
cannot happen in the Python original). -/
def dfNil : DF := ⟨[], []⟩

/-- pandas `df.empty`: true when either axis has length zero. -/
def dfEmpty (d : DF) : Bool := d.rows.isEmpty || d.cols.isEmpty

/-! ## Normalizer (`_normalize_df`) -/

/-- The `rename` dictionary of `_normalize_df`. -/
def renameMap : List (String × String) :=
  [("open", "Open"), ("high", "High"), ("low", "Low"), ("close", "Close"),
   ("volume", "Volume"), ("adjclose", "Adj Close"), ("adj_close", "Adj Close")]

/-- `df.rename(columns=rename)` on one column name. -/
def applyRename (c : String) : String := (renameMap.lookup c).getD c

/-- The combined column transformation of `_normalize_df`:
`c.strip().title()` followed by the synonym rename. -/
def normCol (c : String) : String := applyRename (pyTitle (pyStrip c))

/-- Position of column `"Close"`, as `df["Close"]` resolves it. -/
def closeIdx (cols : List String) : Option Nat := cols.findIdx? (fun c => c == "Close")

/-- Step 1 of `_normalize_df`: `df.rename(columns=lambda c: c.strip().title())`
followed by `df.rename(columns=rename)`. -/
def normCols (cols : List String) : List String :=
  (cols.map (fun c => pyTitle (pyStrip c))).map applyRename

/-- The guard of step 2:
`"Adj Close" not in df.columns and "Close" in df.columns`. -/
def synthCond (cols : List String) : Bool :=
  !(cols.contains "Adj Close") && cols.contains "Close"

/-- Step 2 of `_normalize_df`: `df["Adj Close"] = df["Close"]` when the guard
holds (a new column appended, each cell copied from the `Close` column). -/
def synthAdj (d : DF) : DF :=
  if synthCond d.cols then
    ⟨d.cols ++ ["Adj Close"],
     d.rows.map (fun r => (r.1, r.2 ++ [r.2.getD ((closeIdx d.cols).getD 0) none]))⟩
  else d

/-- Step 3 of `_normalize_df`: `df.index = pd.to_datetime(df.index)`. -/
def dtIndex (d : DF) : DF :=
  ⟨d.cols, d.rows.map (fun r => (pdToDatetime r.1, r.2))⟩

/-- Step 4 of `_normalize_df`: `df.dropna(subset=["Close"])`; pandas raises
`KeyError` when the column is missing. -/
def dropnaClose (d : DF) : Except PyError DF :=
  match closeIdx d.cols with
  | some i => .ok ⟨d.cols, d.rows.filter (fun r => (r.2.getD i none).isSome)⟩
  | none => .error (.keyError "Close")

/-- `_normalize_df`: rename columns by `strip().title()` then by the synonym
map, synthesize `"Adj Close"` from `"Close"` when absent, parse the index to
datetimes, and drop rows with a null `"Close"`. The source does not sort. -/
def _normalize_df (d : DF) : Except PyError DF :=
  dropnaClose (dtIndex (synthAdj ⟨normCols d.cols, d.rows⟩))

/-- `_normalize_df(df)` where `df` may be Python `None` (which happens in
`fetch_ohlcv` when the provider string is unknown): calling `.rename` on
`None` raises `AttributeError`. -/
def _normalize_opt : Option DF → Except PyError DF
  | none => .error (.attributeError "NoneType object has no attribute rename")
  | some d => _normalize_df d

/-! ## Provider adapters -/

/-- One element of the Polygon aggregates `results` array. -/
structure PolyRow where
  t : Int
  o : Int
  h : Int
  l : Int
  c : Int
  v : Int
deriving DecidableEq, Repr

/-- Outcome of the one possible `requests.get` to Polygon: either the call
raises (network failure/timeout), or a response with a status code, a body
text and the decoded `results` array arrives. -/
inductive HttpResult where
  | exn (e : PyError)
  | resp (status : Nat) (text : String) (results : List PolyRow)
deriving DecidableEq, Repr

/-- Outcome of the one possible `yf.download` call: either it raises or it
returns a raw DataFrame. -/
inductive YahooResult where
  | exn (e : PyError)
  | df (d : DF)
deriving DecidableEq, Repr

/-- The world one `fetch_ohlcv` call runs in: configuration, provider
response oracles, the clock, the two date defaults computed from
`datetime.utcnow()`, and the `dateutil` parser. -/
structure Env where
  polygonApiKey : String
  polygonHttp : HttpResult
  yahoo : YahooResult
  nowTs : Int
  today : String
  twoYearsAgo : String
  dparse : String → String

/-- Stable insertion by timestamp, ascending. -/
def insertRowT (x : PolyRow) : List PolyRow → List PolyRow
  | [] => [x]
  | y :: ys => if y.t < x.t then y :: insertRowT x ys else x :: y :: ys

/-- `df.sort_index()` over Polygon result rows. -/
def sortRowsT : List PolyRow → List PolyRow
  | [] => []
  | x :: xs => insertRowT x (sortRowsT xs)

/-- The DataFrame `_polygon_aggs` builds from a non-empty `results` array:
epoch-millisecond timestamps become the index, `o/h/l/c/v` are renamed,
`Adj Close` is set equal to `Close`, columns are selected in a fixed order
and rows are sorted ascending by index. -/
def polyDF (results : List PolyRow) : DF :=
  ⟨["Open", "High", "Low", "Close", "Adj Close", "Volume"],
   (sortRowsT results).map
     (fun r => (.dt r.t, [some r.o, some r.h, some r.l, some r.c, some r.c, some r.v]))⟩

/-- `_polygon_aggs`: issues the HTTP request (the `Event.polygonNet` in the
trace), then raises on a non-200 status or an empty `results` array, and
otherwise builds the DataFrame. The URL/query parameters do not influence the
modelled outcome beyond selecting the oracle. -/
def _polygon_aggs (ticker startD endD timespan : String) (multiplier : Int)
    (api_key : String) (env : Env) : Except PyError DF × List Event :=
  match env.polygonHttp with
  | .exn e => (.error e, [.polygonNet])
  | .resp status text results =>
    if status ≠ 200 then
      (.error (.valueError ("Polygon error " ++ toString status ++ ": " ++ text)), [.polygonNet])
    else if results.isEmpty then
      (.error (.valueError ("No Polygon data for " ++ ticker)), [.polygonNet])
    else (.ok (polyDF results), [.polygonNet])

/-- `_fetch_polygon`: raises `ValueError` at once when the credential is the
empty string (missing from the environment), before any date normalization or
network traffic; otherwise normalizes the dates, resolves the interval to a
timespan and calls `_polygon_aggs`. -/
def _fetch_polygon (ticker startD endD interval api_key : String) (env : Env) :
    Except PyError DF × List Event :=
  if api_key = "" then (.error (.valueError "POLYGON_API_KEY not set."), [])
  else
    let startN := pyOr (env.dparse startD) env.twoYearsAgo
    let endN := pyOr (env.dparse endD) env.today
    if ["1m", "1min", "minute"].contains (pyLower interval) then
      _polygon_aggs ticker startN endN "minute" 1 api_key env
    else
      _polygon_aggs ticker startN endN "day" 1 api_key env

/-- `_fetch_yahoo`: one `yf.download` call (the `Event.yahooNet`), raising on
an empty raw table and otherwise normalizing the raw DataFrame. -/
def _fetch_yahoo (ticker startD endD interval : String) (env : Env) :
    Except PyError DF × List Event :=
  match env.yahoo with
  | .exn e => (.error e, [.yahooNet])
  | .df d =>
    if dfEmpty d then (.error (.valueError ("No Yahoo data for " ++ ticker)), [.yahooNet])
    else (_normalize_df d, [.yahooNet])

/-! ## Cache store and orchestrator (`fetch_ohlcv`) -/

/-- One `_CACHE` entry: creation timestamp and a heap reference to the stored
DataFrame snapshot. -/
structure CEntry where
  ts : Int
  ref : Nat
deriving DecidableEq, Repr

/-- Mutable state of the module: the DataFrame heap (object identity) and the
`_CACHE` dictionary. -/
structure St where
  heap : List DF
  cache : List (String × CEntry)
deriving DecidableEq, Repr

/-- `_TTL_SEC = 15 * 60`. -/
def _TTL_SEC : Int := 15 * 60

/-- Dictionary lookup in `_CACHE`. -/
def cacheGet : List (String × CEntry) → String → Option CEntry
  | [], _ => none
  | (k, e) :: rest, key => if k = key then some e else cacheGet rest key

/-- Dictionary assignment `_CACHE[key] = e` (replaces in place or appends). -/
def cacheInsert : List (String × CEntry) → String → CEntry → List (String × CEntry)
  | [], key, e => [(key, e)]
  | (k, e0) :: rest, key, e =>
    if k = key then (key, e) :: rest else (k, e0) :: cacheInsert rest key e

/-- The freshness test of line 139:
`cache_key in _CACHE and _now() - _CACHE[cache_key]["ts"] < _TTL_SEC`. -/
def cacheGetFresh (c : List (String × CEntry)) (key : String) (now : Int) : Option CEntry :=
  match cacheGet c key with
  | some e => if now - e.ts < _TTL_SEC then some e else none
  | none => none

/-- `(provider or "auto").lower().strip()`. -/
def canonProvider (p : String) : String := pyStrip (pyLower (pyOr p "auto"))

/-- The cache key `fetch_ohlcv` computes: defaults applied to start/end,
ticker upper-cased, provider canonicalized, fields sorted by keyword name. -/
def fetchKey (ticker : String) (startQ endQ : Option String) (interval provider : String)
    (env : Env) : String :=
  _cache_key [("ticker", pyUpper ticker), ("start", startQ.getD env.twoYearsAgo),
              ("end", endQ.getD env.today), ("interval", interval),
              ("provider", canonProvider provider)]

/-- Lines 142-152 of `fetch_ohlcv`: try Polygon when the provider is
`polygon` or `auto`; re-raise its failure for forced Polygon, print the
warning and continue with nothing for `auto`. -/
def tryPolygonStep (ticker startD endD interval provider : String) (env : Env) :
    Except PyError (Option DF) × List Event :=
  if provider = "polygon" ∨ provider = "auto" then
    match _fetch_polygon ticker startD endD interval env.polygonApiKey env with
    | (.ok d, ev) => (.ok (some d), ev)
    | (.error e, ev) =>
      if provider = "polygon" then (.error e, ev)
      else (.ok none,
            ev ++ [.warn ("[WARN] Polygon failed (" ++ pyMsg e ++ "); falling back to Yahoo.")])
  else (.ok none, [])

/-- Lines 153-154 of `fetch_ohlcv`: call Yahoo when nothing was fetched yet
and the provider is `yahoo` or `auto`; its failure propagates. -/
def tryYahooStep (ticker startD endD interval provider : String) (df1 : Option DF) (env : Env) :
    Except PyError (Option DF) × List Event :=
  if df1 = none ∧ (provider = "yahoo" ∨ provider = "auto") then
    match _fetch_yahoo ticker startD endD interval env with
    | (.ok d, ev) => (.ok (some d), ev)
    | (.error e, ev) => (.error e, ev)
  else (.ok df1, [])

/-- Lines 142-158 of `fetch_ohlcv` (the path taken when the cache misses):
provider steps, then normalization of the winning result (`None` when the
provider is unknown), then the cache write and the return. The returned `Nat`
is the heap reference handed to the caller; the cache stores a distinct
reference (the `df.copy()` of line 157) to an equal DataFrame. -/
def fetch_miss (ticker startD endD interval provider key : String) (env : Env) (st : St) :
    Except PyError Nat × St × List Event :=
  match tryPolygonStep ticker startD endD interval provider env with
  | (.error e, ev1) => (.error e, st, ev1)
  | (.ok df1, ev1) =>
    match tryYahooStep ticker startD endD interval provider df1 env with
    | (.error e, ev2) => (.error e, st, ev1 ++ ev2)
    | (.ok df2, ev2) =>
      match _normalize_opt df2 with
      | .error e => (.error e, st, ev1 ++ ev2)
      | .ok d =>
        (.ok st.heap.length,
         ⟨st.heap ++ [d, d], cacheInsert st.cache key ⟨env.nowTs, st.heap.length + 1⟩⟩,
         ev1 ++ ev2)

/-- `fetch_ohlcv`: apply the date defaults, canonicalize the provider,
compute the cache key; on a fresh cache hit return a copy of the stored
DataFrame (a new heap reference, no events); otherwise run the miss path. -/
def fetch_ohlcv (ticker : String) (startQ endQ : Option String) (interval provider : String)
    (env : Env) (st : St) : Except PyError Nat × St × List Event :=
  let startD := startQ.getD env.twoYearsAgo
  let endD := endQ.getD env.today
  let prov := canonProvider provider
  let key := fetchKey ticker startQ endQ interval provider env
  match cacheGetFresh st.cache key env.nowTs with
  | some entry =>
    (.ok st.heap.length, ⟨st.heap ++ [st.heap.getD entry.ref dfNil], st.cache⟩, [])
  | none => fetch_miss ticker startD endD interval prov key env st

/-! ## Observable predicates on DataFrames -/

/-- Every row has a non-null `Close` cell (false when the column is absent). -/
def closeNonNull (d : DF) : Bool :=
  match closeIdx d.cols with
  | some i => d.rows.all (fun r => (r.2.getD i none).isSome)
  | none => false

/-- Every row has a non-null `Adj Close` cell (false when the column is
absent). -/
def adjCloseNonNull (d : DF) : Bool :=
  match d.cols.findIdx? (fun c => c == "Adj Close") with
  | some i => d.rows.all (fun r => (r.2.getD i none).isSome)
  | none => false

/-- The index values are parsed datetimes in strictly ascending order. -/
def ascDates : List IdxVal → Bool
  | [] => true
  | [x] => (match x with | .dt _ => true | .str _ => false)
  | x :: y :: rest =>
    (match x, y with | .dt a, .dt b => decide (a < b) | _, _ => false) && ascDates (y :: rest)

/-- All cache entries point into the heap (always true of states reachable
from the Python module, where the dictionary holds the objects themselves). -/
def wfSt (st : St) : Prop := ∀ p ∈ st.cache, p.2.ref < st.heap.length

/-! ## Idempotence of the normalizer -/

theorem normCol_values {x v : String} (h : renameMap.lookup x = some v) : normCol v = v := by
  simp only [renameMap, List.lookup] at h
  repeat' split at h
  all_goals first
  | (injection h with h2; subst h2; decide)
  | cases h

theorem pyStrip_pyTitle_pyStrip (s : String) :
    pyStrip (pyTitle (pyStrip s)) = pyTitle (pyStrip s) := by
  apply String.ext
  show stripList (pyTitleAux false (stripList s.data)) = pyTitleAux false (stripList s.data)
  exact stripList_eq_self_transfer (pyTitleAux_map_isSpaceA _ _) (stripList_stripList s.data)

theorem pyTitle_pyTitle_pyStrip (s : String) :
    pyTitle (pyTitle (pyStrip s)) = pyTitle (pyStrip s) := by
  apply String.ext
  show pyTitleAux false (pyTitleAux false (stripList s.data)) = pyTitleAux false (stripList s.data)
  exact pyTitleAux_idem _ _

theorem normCol_normCol (c : String) : normCol (normCol c) = normCol c := by
  cases h : renameMap.lookup (pyTitle (pyStrip c)) with
  | some v =>
    have h1 : normCol c = v := by simp [normCol, applyRename, h]
    rw [h1]
    exact normCol_values h
  | none =>
    have h1 : normCol c = pyTitle (pyStrip c) := by simp [normCol, applyRename, h]
    rw [h1]
    show applyRename (pyTitle (pyStrip (pyTitle (pyStrip c)))) = pyTitle (pyStrip c)
    rw [pyStrip_pyTitle_pyStrip, pyTitle_pyTitle_pyStrip]
    simp [applyRename, h]

theorem normCol_adjClose : normCol "Adj Close" = "Adj Close" := by decide

theorem normCols_eq_map (cols : List String) : normCols cols = cols.map normCol := by
  rw [normCols, List.map_map]
  rfl

theorem normCols_fixed {cols : List String} (hx : ∀ x ∈ cols, normCol x = x) :
    normCols cols = cols := by
  rw [normCols_eq_map]
  calc cols.map normCol = cols.map id := List.map_congr_left hx
  _ = cols := List.map_id cols

theorem pdToDatetime_pdToDatetime (x : IdxVal) :
    pdToDatetime (pdToDatetime x) = pdToDatetime x := by
  cases x <;> rfl

theorem closeIdx_contains {cols : List String} {i : Nat} (h : closeIdx cols = some i) :
    cols.contains "Close" = true := by
  have h1 : (cols.findIdx? (fun c => c == "Close")).isSome = true := by
    rw [closeIdx] at h
    rw [h]
    rfl
  rw [List.findIdx?_isSome] at h1
  rw [List.contains_eq_any_beq]
  rw [← h1]
  apply congrArg
  funext c
  simp [beq_iff_eq, eq_comm]

/-- The row transformation of `dtIndex`. -/
def dtRow (r : IdxVal × List (Option Int)) : IdxVal × List (Option Int) :=
  (pdToDatetime r.1, r.2)

theorem dtRow_dtRow (r : IdxVal × List (Option Int)) : dtRow (dtRow r) = dtRow r := by
  simp [dtRow, pdToDatetime_pdToDatetime]

theorem dtIndex_eq (x : DF) : dtIndex x = ⟨x.cols, x.rows.map dtRow⟩ := rfl

theorem dropnaClose_some {x : DF} {i : Nat} (h : closeIdx x.cols = some i) :
    dropnaClose x = .ok ⟨x.cols, x.rows.filter (fun r => (r.2.getD i none).isSome)⟩ := by
  rw [dropnaClose, h]

theorem dropnaClose_none {x : DF} (h : closeIdx x.cols = none) :
    dropnaClose x = .error (.keyError "Close") := by
  rw [dropnaClose, h]

theorem filter_map_comm {α : Type} {q : α → Bool} {f : α → α} (hq : ∀ x, q (f x) = q x)
    (l : List α) : (l.filter q).map f = (l.map f).filter q := by
  induction l with
  | nil => rfl
  | cons x xs ih =>
    simp only [List.filter_cons, List.map_cons, hq]
    by_cases hx : q x = true
    · rw [if_pos hx, if_pos hx, List.map_cons, ih]
    · rw [if_neg hx, if_neg hx, ih]

theorem filter_filter_self {α : Type} (q : α → Bool) (l : List α) :
    (l.filter q).filter q = l.filter q := by
  rw [List.filter_filter]
  apply List.filter_congr
  intro x hx
  rw [Bool.and_self]

theorem mem_normCols_fixed {x : String} {cols : List String} (hx : x ∈ normCols cols) :
    normCol x = x := by
  rw [normCols_eq_map] at hx
  obtain ⟨y, hy, rfl⟩ := List.mem_map.mp hx
  exact normCol_normCol y

theorem synthAdj_cols (x : DF) :
    (synthAdj x).cols = if synthCond x.cols then x.cols ++ ["Adj Close"] else x.cols := by
  rw [synthAdj]
  split <;> rfl

theorem synthAdj_contains {x : DF} (hcc : (synthAdj x).cols.contains "Close" = true) :
    (synthAdj x).cols.contains "Adj Close" = true := by
  rw [synthAdj_cols] at hcc ⊢
  by_cases hc : synthCond x.cols = true
  · rw [if_pos hc]
    simp [List.contains_eq_any_beq, List.any_append]
  · rw [if_neg hc] at hcc ⊢
    cases ha : x.cols.contains "Adj Close" with
    | true => rfl
    | false =>
      exfalso
      apply hc
      rw [synthCond, ha, hcc]
      rfl

theorem normalizeDF_idem {d d' : DF} (h : _normalize_df d = .ok d') :
    _normalize_df d' = .ok d' := by
  rw [_normalize_df] at h
  cases hci : closeIdx (synthAdj ⟨normCols d.cols, d.rows⟩).cols with
  | none =>
    rw [dropnaClose_none (by rw [dtIndex_eq]; exact hci)] at h
    cases h
  | some i =>
    rw [dropnaClose_some (by rw [dtIndex_eq]; exact hci)] at h
    rw [dtIndex_eq] at h
    injection h with h2
    have hcols : d'.cols = (synthAdj ⟨normCols d.cols, d.rows⟩).cols := by
      rw [← h2]
    have hrows : d'.rows =
        ((synthAdj ⟨normCols d.cols, d.rows⟩ : DF).rows.map dtRow).filter
          (fun r => (r.2.getD i none).isSome) := by
      rw [← h2]
    have hfix : ∀ x ∈ d'.cols, normCol x = x := by
      intro x hx
      rw [hcols, synthAdj_cols] at hx
      by_cases hc : synthCond (⟨normCols d.cols, d.rows⟩ : DF).cols = true
      · rw [if_pos hc] at hx
        rcases List.mem_append.mp hx with hx1 | hx2
        · exact mem_normCols_fixed hx1
        · have : x = "Adj Close" := by simpa using hx2
          rw [this]
          exact normCol_adjClose
      · rw [if_neg hc] at hx
        exact mem_normCols_fixed hx
    have hF2 : normCols d'.cols = d'.cols := normCols_fixed hfix
    have hF3 : closeIdx d'.cols = some i := by rw [hcols]; exact hci
    have hcc : d'.cols.contains "Close" = true := closeIdx_contains hF3
    have hca : d'.cols.contains "Adj Close" = true := by
      rw [hcols]
      apply synthAdj_contains
      rw [← hcols]
      exact hcc
    have hF4 : synthCond d'.cols = false := by
      rw [synthCond, hca]
      rfl
    have hmk : (⟨normCols d'.cols, d'.rows⟩ : DF) = ⟨d'.cols, d'.rows⟩ := by rw [hF2]
    have hq : ∀ r : IdxVal × List (Option Int),
        ((dtRow r).2.getD i none).isSome = (r.2.getD i none).isSome := fun r => rfl
    have hX : ((synthAdj ⟨normCols d.cols, d.rows⟩ : DF).rows.map dtRow).map dtRow =
        (synthAdj ⟨normCols d.cols, d.rows⟩ : DF).rows.map dtRow := by
      rw [List.map_map]
      apply List.map_congr_left
      intro r hr
      exact dtRow_dtRow r
    have hF6 : (d'.rows.map dtRow).filter (fun r => (r.2.getD i none).isSome) = d'.rows := by
      rw [hrows]
      rw [filter_map_comm hq]
      rw [hX]
      exact filter_filter_self _ _
    rw [_normalize_df, hmk]
    have hsc : synthAdj (⟨d'.cols, d'.rows⟩ : DF) = ⟨d'.cols, d'.rows⟩ := by
      simp [synthAdj, show synthCond (⟨d'.cols, d'.rows⟩ : DF).cols = false from hF4]
    rw [hsc]
    show dropnaClose ⟨d'.cols, d'.rows.map dtRow⟩ = .ok d'
    rw [@dropnaClose_some ⟨d'.cols, d'.rows.map dtRow⟩ i hF3]
    show Except.ok (⟨d'.cols, (d'.rows.map dtRow).filter (fun r => (r.2.getD i none).isSome)⟩ : DF) = .ok d'
    rw [hF6]

/-! ## Claim C7: normalization is idempotent -/

/-- C7: for every Series that is the output of the normalizer, applying the
normalizer again yields the same Series (same columns, same rows, same dates,
same values). -/
theorem C7_normalize_idempotent (d d' : DF) (h : _normalize_df d = Except.ok d') :
    _normalize_df d' = Except.ok d' :=
  normalizeDF_idem h

/-- Witness for C7: a concrete raw table, its normalization, and the
re-normalization fixed point. -/
theorem C7_witness :
    _normalize_df ⟨["close"], [(.dt 0, [some 5])]⟩ =
      Except.ok ⟨["Close", "Adj Close"], [(.dt 0, [some 5, some 5])]⟩ ∧
    _normalize_df ⟨["Close", "Adj Close"], [(.dt 0, [some 5, some 5])]⟩ =
      Except.ok ⟨["Close", "Adj Close"], [(.dt 0, [some 5, some 5])]⟩ :=
  ⟨rfl, C7_normalize_idempotent ⟨["close"], [(.dt 0, [some 5])]⟩
    ⟨["Close", "Adj Close"], [(.dt 0, [some 5, some 5])]⟩ rfl⟩

/-! ## Claim C9: missing Polygon credential fails before the network -/

/-- C9: with an absent (empty or unset, hence empty via `os.getenv`
defaulting) credential, the Polygon adapter fails immediately with the
`AuthMissing`-class error and an empty event trace: no network request is
issued. -/
theorem C9_polygon_auth_missing (ticker startD endD interval : String) (env : Env) :
    _fetch_polygon ticker startD endD interval "" env =
      (Except.error (PyError.valueError "POLYGON_API_KEY not set."), []) := by
  rw [_fetch_polygon]
  rfl

/-! ## Claim C8: the cache key -/

/-- A string avoiding the `|` field separator of `_cache_key`. -/
def noBar (s : String) : Prop := ('|' : Char) ∉ s.data

instance (s : String) : Decidable (noBar s) :=
  inferInstanceAs (Decidable (('|' : Char) ∉ s.data))

theorem cache_key_data (t s e i p : String) :
    (_cache_key [("ticker", t), ("start", s), ("end", e), ("interval", i), ("provider", p)]).data =
      'e' :: 'n' :: 'd' :: '=' :: (e.data ++ '|' ::
        ('i' :: 'n' :: 't' :: 'e' :: 'r' :: 'v' :: 'a' :: 'l' :: '=' :: (i.data ++ '|' ::
          ('p' :: 'r' :: 'o' :: 'v' :: 'i' :: 'd' :: 'e' :: 'r' :: '=' :: (p.data ++ '|' ::
            ('s' :: 't' :: 'a' :: 'r' :: 't' :: '=' :: (s.data ++ '|' ::
              ('t' :: 'i' :: 'c' :: 'k' :: 'e' :: 'r' :: '=' :: t.data)))))))) := by
  have h0 : _cache_key [("ticker", t), ("start", s), ("end", e), ("interval", i), ("provider", p)] =
      (((((((("end" ++ "=" ++ e) ++ "|") ++ ("interval" ++ "=" ++ i)) ++ "|") ++
        ("provider" ++ "=" ++ p)) ++ "|") ++ ("start" ++ "=" ++ s)) ++ "|") ++
        ("ticker" ++ "=" ++ t) := rfl
  rw [h0]
  simp only [String.data_append, List.append_assoc, List.cons_append, List.nil_append,
    show ("end" : String).data = ['e', 'n', 'd'] from rfl,
    show ("=" : String).data = ['='] from rfl,
    show ("|" : String).data = ['|'] from rfl,
    show ("interval" : String).data = ['i', 'n', 't', 'e', 'r', 'v', 'a', 'l'] from rfl,
    show ("provider" : String).data = ['p', 'r', 'o', 'v', 'i', 'd', 'e', 'r'] from rfl,
    show ("start" : String).data = ['s', 't', 'a', 'r', 't'] from rfl,
    show ("ticker" : String).data = ['t', 'i', 'c', 'k', 'e', 'r'] from rfl]

theorem bar_split {xs ys as bs : List Char} (hx : ('|' : Char) ∉ xs) (ha : ('|' : Char) ∉ as)
    (h : xs ++ '|' :: ys = as ++ '|' :: bs) : xs = as ∧ ys = bs := by
  induction xs generalizing as with
  | nil =>
    cases as with
    | nil => simpa using h
    | cons a as2 =>
      exfalso
      simp only [List.nil_append, List.cons_append, List.cons.injEq] at h
      apply ha
      rw [← h.1]
      exact List.mem_cons_self _ _
  | cons x xs2 ih =>
    cases as with
    | nil =>
      exfalso
      simp only [List.nil_append, List.cons_append, List.cons.injEq] at h
      apply hx
      rw [h.1]
      exact List.mem_cons_self _ _
    | cons a as2 =>
      simp only [List.cons_append, List.cons.injEq] at h
      obtain ⟨h1, h2⟩ := h
      have hx2 : ('|' : Char) ∉ xs2 := fun hm => hx (List.mem_cons_of_mem _ hm)
      have ha2 : ('|' : Char) ∉ as2 := fun hm => ha (List.mem_cons_of_mem _ hm)
      obtain ⟨h3, h4⟩ := ih hx2 ha2 h2
      exact ⟨by rw [h1, h3], h4⟩

/-- C8 counterexample: two requests that differ in their canonicalized
interval/provider fields (the ticker is already upper-case and the providers
already lower-case) but collide on the cache key, because the field values may
contain the `|` separator. -/
theorem C8_counterexample :
    _cache_key [("ticker", "T"), ("start", "S"), ("end", "E"),
                ("interval", "1d|provider=a"), ("provider", "b")] =
      _cache_key [("ticker", "T"), ("start", "S"), ("end", "E"),
                  ("interval", "1d"), ("provider", "a|provider=b")] ∧
    ("1d|provider=a" : String) ≠ "1d" :=
  ⟨rfl, by decide⟩

/-- C8 amended: identical requests always give equal keys, and requests that
are distinct after canonicalization give distinct keys, provided no field
value contains the `|` separator character (true of all well-formed tickers,
ISO dates, intervals and provider names). -/
theorem C8_cache_key_injective (t s e i p t2 s2 e2 i2 p2 : String)
    (ht : noBar t) (hs : noBar s) (he : noBar e) (hi : noBar i) (hp : noBar p)
    (ht2 : noBar t2) (hs2 : noBar s2) (he2 : noBar e2) (hi2 : noBar i2) (hp2 : noBar p2) :
    _cache_key [("ticker", t), ("start", s), ("end", e), ("interval", i), ("provider", p)] =
      _cache_key [("ticker", t2), ("start", s2), ("end", e2), ("interval", i2), ("provider", p2)] ↔
    (t = t2 ∧ s = s2 ∧ e = e2 ∧ i = i2 ∧ p = p2) := by
  constructor
  · intro heq
    have hd := congrArg String.data heq
    rw [cache_key_data, cache_key_data] at hd
    simp only [List.cons.injEq, true_and] at hd
    obtain ⟨he', hd⟩ := bar_split he he2 hd
    simp only [List.cons.injEq, true_and] at hd
    obtain ⟨hi', hd⟩ := bar_split hi hi2 hd
    simp only [List.cons.injEq, true_and] at hd
    obtain ⟨hp', hd⟩ := bar_split hp hp2 hd
    simp only [List.cons.injEq, true_and] at hd
    obtain ⟨hs', hd⟩ := bar_split hs hs2 hd
    simp only [List.cons.injEq, true_and] at hd
    exact ⟨String.ext hd, String.ext hs', String.ext he', String.ext hi', String.ext hp'⟩
  · rintro ⟨rfl, rfl, rfl, rfl, rfl⟩
    rfl

/-- Witness for C8 at concrete separator-free requests. -/
theorem C8_witness :
    (_cache_key [("ticker", "A"), ("start", "S"), ("end", "E"),
                 ("interval", "1d"), ("provider", "auto")] =
      _cache_key [("ticker", "A"), ("start", "S"), ("end", "E"),
                  ("interval", "1h"), ("provider", "auto")] ↔
    (("A" : String) = "A" ∧ ("S" : String) = "S" ∧ ("E" : String) = "E" ∧
      ("1d" : String) = "1h" ∧ ("auto" : String) = "auto")) :=
  C8_cache_key_injective "A" "S" "E" "1d" "auto" "A" "S" "E" "1h" "auto"
    (by decide) (by decide) (by decide) (by decide) (by decide)
    (by decide) (by decide) (by decide) (by decide) (by decide)

/-! ## Helper lemmas about the orchestrator -/

theorem fetch_ohlcv_eq (ticker : String) (startQ endQ : Option String)
    (interval provider : String) (env : Env) (st : St) :
    fetch_ohlcv ticker startQ endQ interval provider env st =
      match cacheGetFresh st.cache (fetchKey ticker startQ endQ interval provider env)
          env.nowTs with
      | some entry =>
        (.ok st.heap.length, ⟨st.heap ++ [st.heap.getD entry.ref dfNil], st.cache⟩, [])
      | none =>
        fetch_miss ticker (startQ.getD env.twoYearsAgo) (endQ.getD env.today) interval
          (canonProvider provider) (fetchKey ticker startQ endQ interval provider env) env st :=
  rfl

theorem fetch_ohlcv_hit {ticker : String} {startQ endQ : Option String}
    {interval provider : String} {env : Env} {st : St} {entry : CEntry}
    (h : cacheGetFresh st.cache (fetchKey ticker startQ endQ interval provider env)
        env.nowTs = some entry) :
    fetch_ohlcv ticker startQ endQ interval provider env st =
      (.ok st.heap.length, ⟨st.heap ++ [st.heap.getD entry.ref dfNil], st.cache⟩, []) := by
  rw [fetch_ohlcv_eq, h]

theorem fetch_ohlcv_miss {ticker : String} {startQ endQ : Option String}
    {interval provider : String} {env : Env} {st : St}
    (h : cacheGetFresh st.cache (fetchKey ticker startQ endQ interval provider env)
        env.nowTs = none) :
    fetch_ohlcv ticker startQ endQ interval provider env st =
      fetch_miss ticker (startQ.getD env.twoYearsAgo) (endQ.getD env.today) interval
        (canonProvider provider) (fetchKey ticker startQ endQ interval provider env) env st := by
  rw [fetch_ohlcv_eq, h]

theorem cacheGetFresh_eq_of_get {c : List (String × CEntry)} {k : String} {e : CEntry}
    (n : Int) (h1 : cacheGet c k = some e) :
    cacheGetFresh c k n = (if n - e.ts < _TTL_SEC then some e else none) := by
  rw [cacheGetFresh, h1]

theorem cacheGetFresh_of_fresh {c : List (String × CEntry)} {k : String} {n : Int} {e : CEntry}
    (h1 : cacheGet c k = some e) (h2 : n - e.ts < _TTL_SEC) :
    cacheGetFresh c k n = some e := by
  rw [cacheGetFresh_eq_of_get n h1, if_pos h2]

theorem cacheGetFresh_stale {c : List (String × CEntry)} {k : String} {n : Int} {e : CEntry}
    (h1 : cacheGet c k = some e) (h2 : ¬ n - e.ts < _TTL_SEC) :
    cacheGetFresh c k n = none := by
  rw [cacheGetFresh_eq_of_get n h1, if_neg h2]

theorem cacheGetFresh_some_imp {c : List (String × CEntry)} {k : String} {n : Int} {e : CEntry}
    (h : cacheGetFresh c k n = some e) : cacheGet c k = some e := by
  cases hg : cacheGet c k with
  | none =>
    have h2 : cacheGetFresh c k n = none := by rw [cacheGetFresh, hg]
    rw [h2] at h
    cases h
  | some x =>
    rw [cacheGetFresh_eq_of_get n hg] at h
    by_cases hf : n - x.ts < _TTL_SEC
    · rw [if_pos hf] at h
      exact h
    · rw [if_neg hf] at h
      cases h

theorem cacheGet_mem {c : List (String × CEntry)} {k : String} {e : CEntry}
    (h : cacheGet c k = some e) : (k, e) ∈ c := by
  induction c with
  | nil => cases h
  | cons p rest ih =>
    rw [cacheGet] at h
    by_cases hk : p.1 = k
    · rw [if_pos hk] at h
      injection h with h2
      have : p = (k, e) := by
        cases p
        simp_all
      rw [← this]
      exact List.mem_cons_self _ _
    · rw [if_neg hk] at h
      exact List.mem_cons_of_mem _ (ih h)

theorem cacheGet_cacheInsert_self (c : List (String × CEntry)) (k : String) (e : CEntry) :
    cacheGet (cacheInsert c k e) k = some e := by
  induction c with
  | nil => simp [cacheInsert, cacheGet]
  | cons p rest ih =>
    rw [cacheInsert]
    by_cases hk : p.1 = k
    · rw [if_pos hk, cacheGet, if_pos rfl]
    · rw [if_neg hk, cacheGet, if_neg hk, ih]

theorem getD_of_getElem? {l : List DF} {n : Nat} {x : DF} (h : l[n]? = some x) :
    l.getD n dfNil = x := by
  rw [List.getD_eq_getElem?_getD, h]
  rfl

theorem yahoo_events (t sd ed i : String) (env : Env) :
    (_fetch_yahoo t sd ed i env).2 = [.yahooNet] := by
  rw [_fetch_yahoo]
  split
  · rfl
  · split <;> rfl

theorem yahoo_ok_normalized {t sd ed i : String} {env : Env} {yd : DF} {evy : List Event}
    (hy : _fetch_yahoo t sd ed i env = (.ok yd, evy)) : _normalize_df yd = .ok yd := by
  rw [_fetch_yahoo] at hy
  cases henv : env.yahoo with
  | exn e =>
    rw [henv] at hy
    simp at hy
  | df d =>
    rw [henv] at hy
    have hy2 : (if dfEmpty d = true
        then ((Except.error (PyError.valueError ("No Yahoo data for " ++ t)),
          [Event.yahooNet]) : Except PyError DF × List Event)
        else (_normalize_df d, [Event.yahooNet])) = (Except.ok yd, evy) := hy
    by_cases hde : dfEmpty d = true
    · rw [if_pos hde] at hy2
      simp at hy2
    · rw [if_neg hde] at hy2
      have h1 : _normalize_df d = .ok yd := congrArg Prod.fst hy2
      exact normalizeDF_idem h1

theorem polygon_aggs_events (t sd ed ts : String) (m : Int) (k : String) (env : Env) :
    (_polygon_aggs t sd ed ts m k env).2 = [.polygonNet] := by
  rw [_polygon_aggs]
  split
  · rfl
  · split
    · rfl
    · split <;> rfl

theorem polygon_no_yahooNet (t sd ed i k : String) (env : Env) :
    Event.yahooNet ∉ (_fetch_polygon t sd ed i k env).2 := by
  rw [_fetch_polygon]
  by_cases hk : k = ""
  · rw [if_pos hk]
    simp
  · rw [if_neg hk]
    by_cases hi : (["1m", "1min", "minute"].contains (pyLower i)) = true
    · rw [if_pos hi, polygon_aggs_events]
      simp
    · rw [if_neg hi, polygon_aggs_events]
      simp

theorem tryPolygonStep_polygon_error {t sd ed i : String} {env : Env} {pe : PyError}
    {evp : List Event}
    (hp : _fetch_polygon t sd ed i env.polygonApiKey env = (.error pe, evp)) :
    tryPolygonStep t sd ed i "polygon" env = (.error pe, evp) := by
  rw [tryPolygonStep, if_pos (Or.inl rfl), hp]
  rfl

theorem tryPolygonStep_auto_error {t sd ed i : String} {env : Env} {pe : PyError}
    {evp : List Event}
    (hp : _fetch_polygon t sd ed i env.polygonApiKey env = (.error pe, evp)) :
    tryPolygonStep t sd ed i "auto" env =
      (.ok none,
       evp ++ [.warn ("[WARN] Polygon failed (" ++ pyMsg pe ++ "); falling back to Yahoo.")]) := by
  rw [tryPolygonStep, if_pos (Or.inr rfl), hp]
  rfl

theorem tryPolygonStep_ok {t sd ed i prov : String} {env : Env} {d : DF} {evp : List Event}
    (hprov : prov = "polygon" ∨ prov = "auto")
    (hp : _fetch_polygon t sd ed i env.polygonApiKey env = (.ok d, evp)) :
    tryPolygonStep t sd ed i prov env = (.ok (some d), evp) := by
  rw [tryPolygonStep, if_pos hprov, hp]

theorem tryPolygonStep_skip {t sd ed i prov : String} {env : Env}
    (h1 : prov ≠ "polygon") (h2 : prov ≠ "auto") :
    tryPolygonStep t sd ed i prov env = (.ok none, []) := by
  rw [tryPolygonStep, if_neg (by simp [h1, h2])]

theorem tryYahooStep_ok {t sd ed i prov : String} {env : Env} {yd : DF} {evy : List Event}
    (hprov : prov = "yahoo" ∨ prov = "auto")
    (hy : _fetch_yahoo t sd ed i env = (.ok yd, evy)) :
    tryYahooStep t sd ed i prov none env = (.ok (some yd), evy) := by
  rw [tryYahooStep, if_pos ⟨rfl, hprov⟩, hy]

theorem tryYahooStep_error {t sd ed i prov : String} {env : Env} {e : PyError}
    {evy : List Event}
    (hprov : prov = "yahoo" ∨ prov = "auto")
    (hy : _fetch_yahoo t sd ed i env = (.error e, evy)) :
    tryYahooStep t sd ed i prov none env = (.error e, evy) := by
  rw [tryYahooStep, if_pos ⟨rfl, hprov⟩, hy]

theorem tryYahooStep_some (t sd ed i prov : String) (df : DF) (env : Env) :
    tryYahooStep t sd ed i prov (some df) env = (.ok (some df), []) := by
  rw [tryYahooStep, if_neg (by simp)]

theorem tryYahooStep_skip {prov : String} (t sd ed i : String) (df1 : Option DF) (env : Env)
    (h1 : prov ≠ "yahoo") (h2 : prov ≠ "auto") :
    tryYahooStep t sd ed i prov df1 env = (.ok df1, []) := by
  rw [tryYahooStep, if_neg (by simp [h1, h2])]

theorem fetch_miss_step1_error {t sd ed i prov key : String} {env : Env} {st : St}
    {e : PyError} {ev1 : List Event}
    (h1 : tryPolygonStep t sd ed i prov env = (.error e, ev1)) :
    fetch_miss t sd ed i prov key env st = (.error e, st, ev1) := by
  rw [fetch_miss, h1]

theorem fetch_miss_step1_ok {t sd ed i prov key : String} {env : Env} {st : St}
    {df1 : Option DF} {ev1 : List Event}
    (h1 : tryPolygonStep t sd ed i prov env = (.ok df1, ev1)) :
    fetch_miss t sd ed i prov key env st =
      (match tryYahooStep t sd ed i prov df1 env with
       | (.error e, ev2) => (.error e, st, ev1 ++ ev2)
       | (.ok df2, ev2) =>
         match _normalize_opt df2 with
         | .error e => (.error e, st, ev1 ++ ev2)
         | .ok d =>
           (.ok st.heap.length,
            ⟨st.heap ++ [d, d], cacheInsert st.cache key ⟨env.nowTs, st.heap.length + 1⟩⟩,
            ev1 ++ ev2)) := by
  rw [fetch_miss, h1]

theorem tryYahooStep_run_events {t sd ed i prov : String} {env : Env}
    (hprov : prov = "yahoo" ∨ prov = "auto") :
    (tryYahooStep t sd ed i prov none env).2 = (_fetch_yahoo t sd ed i env).2 := by
  rw [tryYahooStep, if_pos ⟨rfl, hprov⟩]
  rcases _fetch_yahoo t sd ed i env with ⟨res, ev⟩
  cases res <;> rfl

theorem fetch_miss_yahoo_events (t sd ed i key : String) (env : Env) (st : St) :
    Event.yahooNet ∈ (fetch_miss t sd ed i "yahoo" key env st).2.2 := by
  have h1 : tryPolygonStep t sd ed i "yahoo" env = (.ok none, []) :=
    tryPolygonStep_skip (by decide) (by decide)
  rw [fetch_miss_step1_ok h1]
  rcases h2 : tryYahooStep t sd ed i "yahoo" none env with ⟨res, ev⟩
  have hev : ev = [.yahooNet] := by
    have h3 := @tryYahooStep_run_events t sd ed i "yahoo" env (Or.inl rfl)
    rw [h2, yahoo_events t sd ed i env] at h3
    exact h3
  subst hev
  cases res with
  | error e => simp
  | ok df2 => cases hn : _normalize_opt df2 <;> simp [hn]

/-! ## Claim C3: unconditional auto fallback -/

/-- C3: with no fresh cache entry, when the Polygon adapter fails (with any
error) and Yahoo succeeds, `fetch_ohlcv(t, provider="auto")` emits the
fallback warning after the Polygon trace, performs the Yahoo call, returns
Yahoo's data (a fresh reference to exactly the DataFrame Yahoo produced, which
the final normalization leaves unchanged), caches it, and does not raise the
Polygon error. -/
theorem C3_auto_fallback (ticker : String) (startQ endQ : Option String) (interval : String)
    (env : Env) (st : St) (pe : PyError) (evp : List Event) (yd : DF) (evy : List Event)
    (hkey : cacheGetFresh st.cache (fetchKey ticker startQ endQ interval "auto" env)
        env.nowTs = none)
    (hp : _fetch_polygon ticker (startQ.getD env.twoYearsAgo) (endQ.getD env.today) interval
        env.polygonApiKey env = (.error pe, evp))
    (hy : _fetch_yahoo ticker (startQ.getD env.twoYearsAgo) (endQ.getD env.today) interval
        env = (.ok yd, evy)) :
    fetch_ohlcv ticker startQ endQ interval "auto" env st =
      (.ok st.heap.length,
       ⟨st.heap ++ [yd, yd],
        cacheInsert st.cache (fetchKey ticker startQ endQ interval "auto" env)
          ⟨env.nowTs, st.heap.length + 1⟩⟩,
       (evp ++ [.warn ("[WARN] Polygon failed (" ++ pyMsg pe ++ "); falling back to Yahoo.")])
         ++ evy) := by
  have hnorm : _normalize_opt (some yd) = Except.ok yd := yahoo_ok_normalized hy
  rw [fetch_ohlcv_miss hkey]
  rw [show canonProvider "auto" = "auto" from rfl]
  rw [fetch_miss_step1_ok (tryPolygonStep_auto_error hp)]
  rw [tryYahooStep_ok (Or.inr rfl) hy]
  simp only [hnorm]

/-! ## Claim C4: forced polygon is strict -/

/-- C4: with no fresh cache entry, `fetch_ohlcv(t, provider="polygon")` with a
failing Polygon adapter returns exactly that error with the cache state
untouched, and the event trace (Polygon's own trace) contains no Yahoo call. -/
theorem C4_forced_polygon (ticker : String) (startQ endQ : Option String) (interval : String)
    (env : Env) (st : St) (pe : PyError) (evp : List Event)
    (hkey : cacheGetFresh st.cache (fetchKey ticker startQ endQ interval "polygon" env)
        env.nowTs = none)
    (hp : _fetch_polygon ticker (startQ.getD env.twoYearsAgo) (endQ.getD env.today) interval
        env.polygonApiKey env = (.error pe, evp)) :
    fetch_ohlcv ticker startQ endQ interval "polygon" env st = (.error pe, st, evp) ∧
    Event.yahooNet ∉ evp := by
  constructor
  · rw [fetch_ohlcv_miss hkey]
    rw [show canonProvider "polygon" = "polygon" from rfl]
    rw [fetch_miss_step1_error (tryPolygonStep_polygon_error hp)]
  · intro hmem
    have h2 := polygon_no_yahooNet ticker (startQ.getD env.twoYearsAgo) (endQ.getD env.today)
      interval env.polygonApiKey env
    rw [hp] at h2
    exact h2 hmem

/-! ## Claim C10: unknown provider strings -/

/-- C10: when the canonicalized provider string is none of `auto`, `polygon`,
`yahoo` and the cache has no fresh entry, `fetch_ohlcv` raises the
`AttributeError` from normalizing `None` instead of returning a Series, with
an empty event trace (no provider call) and the state unchanged (no cache
write). -/
theorem C10_unknown_provider (ticker : String) (startQ endQ : Option String)
    (interval provider : String) (env : Env) (st : St)
    (h1 : canonProvider provider ≠ "auto")
    (h2 : canonProvider provider ≠ "polygon")
    (h3 : canonProvider provider ≠ "yahoo")
    (hkey : cacheGetFresh st.cache (fetchKey ticker startQ endQ interval provider env)
        env.nowTs = none) :
    fetch_ohlcv ticker startQ endQ interval provider env st =
      (.error (.attributeError "NoneType object has no attribute rename"), st, []) := by
  rw [fetch_ohlcv_miss hkey]
  rw [fetch_miss_step1_ok (tryPolygonStep_skip h2 h1)]
  rw [tryYahooStep_skip _ _ _ _ _ _ h3 h1]
  rfl

/-! ## Claim C5: cache TTL -/

/-- C5: a cached entry is served only when strictly fresh
(`now - ts < _TTL_SEC` with `_TTL_SEC = 900`), in which case a copy (a fresh
reference to the stored DataFrame) is returned with no events (no network
access) and the cache unchanged; an entry at or past the TTL makes the call
behave exactly as a miss — the stale entry is not deleted, only ignored, and a
new provider fetch occurs (witnessed by the Yahoo network event when the
provider is `yahoo`). -/
theorem C5_cache_ttl (ticker : String) (startQ endQ : Option String)
    (interval provider : String) (env : Env) (st : St) (entry : CEntry) (d : DF)
    (hg : cacheGet st.cache (fetchKey ticker startQ endQ interval provider env) = some entry)
    (hd : st.heap[entry.ref]? = some d) :
    (env.nowTs - entry.ts < _TTL_SEC →
      fetch_ohlcv ticker startQ endQ interval provider env st =
        (.ok st.heap.length, ⟨st.heap ++ [d], st.cache⟩, [])) ∧
    (¬ env.nowTs - entry.ts < _TTL_SEC →
      fetch_ohlcv ticker startQ endQ interval provider env st =
        fetch_miss ticker (startQ.getD env.twoYearsAgo) (endQ.getD env.today) interval
          (canonProvider provider) (fetchKey ticker startQ endQ interval provider env) env st ∧
      (provider = "yahoo" →
        Event.yahooNet ∈ (fetch_ohlcv ticker startQ endQ interval provider env st).2.2)) := by
  constructor
  · intro hfresh
    rw [fetch_ohlcv_hit (cacheGetFresh_of_fresh hg hfresh)]
    rw [getD_of_getElem? hd]
  · intro hstale
    have hmiss := fetch_ohlcv_miss (cacheGetFresh_stale hg hstale)
    refine ⟨hmiss, ?_⟩
    intro hprov
    subst hprov
    rw [hmiss]
    rw [show canonProvider "yahoo" = "yahoo" from rfl]
    exact fetch_miss_yahoo_events _ _ _ _ _ _ _

/-! ## Claim C6: defensive copies -/

/-- C6: whenever `fetch_ohlcv` succeeds (cache hit or fresh fetch), the cache
holds an entry for the computed key whose heap reference differs from the
returned reference, so overwriting the returned DataFrame (heap mutation at
the returned reference) leaves the cached DataFrame unchanged. -/
theorem C6_defensive_copy (ticker : String) (startQ endQ : Option String)
    (interval provider : String) (env : Env) (st st' : St) (r : Nat) (ev : List Event)
    (hwf : wfSt st)
    (h : fetch_ohlcv ticker startQ endQ interval provider env st = (.ok r, st', ev)) :
    ∃ e', cacheGet st'.cache (fetchKey ticker startQ endQ interval provider env) = some e' ∧
      e'.ref ≠ r ∧ ∀ d', (st'.heap.set r d')[e'.ref]? = st'.heap[e'.ref]? := by
  cases hcf : cacheGetFresh st.cache (fetchKey ticker startQ endQ interval provider env)
      env.nowTs with
  | some entry =>
    rw [fetch_ohlcv_hit hcf] at h
    injection h with h1 h23
    injection h23 with h2 h3
    injection h1 with h1
    have hlt : entry.ref < st.heap.length :=
      hwf _ (cacheGet_mem (cacheGetFresh_some_imp hcf))
    refine ⟨entry, ?_, ?_, ?_⟩
    · rw [← h2]
      exact cacheGetFresh_some_imp hcf
    · rw [← h1]
      omega
    · intro d'
      apply List.getElem?_set_ne
      rw [← h1]
      omega
  | none =>
    rw [fetch_ohlcv_miss hcf] at h
    rcases h1 : tryPolygonStep ticker (startQ.getD env.twoYearsAgo) (endQ.getD env.today)
        interval (canonProvider provider) env with ⟨res1, ev1⟩
    cases res1 with
    | error e =>
      rw [fetch_miss_step1_error h1] at h
      simp at h
    | ok df1 =>
      rw [fetch_miss_step1_ok h1] at h
      rcases h2 : tryYahooStep ticker (startQ.getD env.twoYearsAgo) (endQ.getD env.today)
          interval (canonProvider provider) df1 env with ⟨res2, ev2⟩
      rw [h2] at h
      cases res2 with
      | error e => simp at h
      | ok df2 =>
        have h' : (match _normalize_opt df2 with
            | .error e => ((.error e, st, ev1 ++ ev2) : Except PyError Nat × St × List Event)
            | .ok d =>
              (.ok st.heap.length,
               ⟨st.heap ++ [d, d],
                cacheInsert st.cache (fetchKey ticker startQ endQ interval provider env)
                  ⟨env.nowTs, st.heap.length + 1⟩⟩,
               ev1 ++ ev2)) = (.ok r, st', ev) := h
        cases h3 : _normalize_opt df2 with
        | error e =>
          rw [h3] at h'
          simp at h'
        | ok d =>
          rw [h3] at h'
          injection h' with ha hbc
          injection hbc with hb hc
          injection ha with ha
          refine ⟨⟨env.nowTs, st.heap.length + 1⟩, ?_, ?_, ?_⟩
          · rw [← hb]
            exact cacheGet_cacheInsert_self _ _ _
          · show st.heap.length + 1 ≠ r
            omega
          · intro d'
            apply List.getElem?_set_ne
            show r ≠ st.heap.length + 1
            omega

/-! ## Claim C1: empty results -/

/-- Oracle world for the C1 counterexample: no Polygon key, Yahoo returns a
non-empty raw table whose single row is already datetime-indexed (so the
index conversion of `_normalize_df` is the identity, as in pandas) and has a
null Close. -/
def cexEnvC1 : Env :=
  ⟨"", .exn (.valueError "down"), .df ⟨["Close"], [(.dt 5, [none])]⟩, 0, "E", "S",
   fun s => s⟩

/-- C1 counterexample: the Yahoo raw table is non-empty, so the raw-emptiness
check passes, normalization drops every row, and `fetch_ohlcv` returns `ok`
with a Series of zero rows — no `DataError` is surfaced. -/
theorem C1_counterexample :
    (fetch_ohlcv "A" none none "1d" "yahoo" cexEnvC1 ⟨[], []⟩).1 = .ok 0 ∧
    (fetch_ohlcv "A" none none "1d" "yahoo" cexEnvC1 ⟨[], []⟩).2.1.heap[0]? =
      some ⟨["Close", "Adj Close"], []⟩ :=
  ⟨rfl, rfl⟩

/-- C1 amended: emptiness is only checked on the raw provider table, before
normalization — with a Yahoo provider and an empty raw download, the call
raises the descriptive error (and this is the only emptiness check; when
normalization drops all rows of a non-empty raw table the call returns an
empty Series, as the counterexample shows). -/
theorem C1_raw_empty_checked (ticker : String) (startQ endQ : Option String)
    (interval : String) (env : Env) (st : St) (d : DF)
    (hkey : cacheGetFresh st.cache (fetchKey ticker startQ endQ interval "yahoo" env)
        env.nowTs = none)
    (hyd : env.yahoo = .df d) (hde : dfEmpty d = true) :
    fetch_ohlcv ticker startQ endQ interval "yahoo" env st =
      (.error (.valueError ("No Yahoo data for " ++ ticker)), st, [.yahooNet]) := by
  have hy : _fetch_yahoo ticker (startQ.getD env.twoYearsAgo) (endQ.getD env.today) interval
      env = (.error (.valueError ("No Yahoo data for " ++ ticker)), [.yahooNet]) := by
    rw [_fetch_yahoo, hyd]
    show (if dfEmpty d = true
        then ((Except.error (PyError.valueError ("No Yahoo data for " ++ ticker)),
          [Event.yahooNet]) : Except PyError DF × List Event)
        else (_normalize_df d, [Event.yahooNet])) = _
    rw [if_pos hde]
  rw [fetch_ohlcv_miss hkey]
  rw [show canonProvider "yahoo" = "yahoo" from rfl]
  rw [fetch_miss_step1_ok (tryPolygonStep_skip (by decide) (by decide))]
  rw [tryYahooStep_error (Or.inl rfl) hy]
  rfl

/-- Oracle world for the C1 witness: Yahoo's raw table is empty. -/
def witEnvC1 : Env :=
  ⟨"", .exn (.valueError "down"), .df ⟨["Close"], []⟩, 0, "E", "S", fun s => s⟩

/-- Witness for the amended C1 at a concrete world. -/
theorem C1_witness :
    fetch_ohlcv "A" none none "1d" "yahoo" witEnvC1 ⟨[], []⟩ =
      (.error (.valueError ("No Yahoo data for " ++ "A")), ⟨[], []⟩, [.yahooNet]) :=
  C1_raw_empty_checked "A" none none "1d" witEnvC1 ⟨[], []⟩ ⟨["Close"], []⟩ rfl rfl rfl

/-! ## Claim C2: the Series invariants after normalization -/

/-- Dates of a DataFrame, in row order. -/
def dfDates (d : DF) : List IdxVal := d.rows.map (fun r => r.1)

/-- Oracle world for the C2 counterexample: Yahoo returns rows in descending
date order with a null in an existing `Adj Close` column. -/
def cexEnvC2 : Env :=
  ⟨"", .exn (.valueError "down"),
   .df ⟨["Close", "Adj Close"], [(.dt 2, [some 1, none]), (.dt 1, [some 2, some 2])]⟩,
   0, "E", "S", fun s => s⟩

/-- C2 counterexample: the normalizer never sorts and keeps nulls in an
existing `Adj Close` column, so the Series returned by `fetch_ohlcv` has
descending dates and a null AdjClose cell. -/
theorem C2_counterexample :
    (fetch_ohlcv "A" none none "1d" "yahoo" cexEnvC2 ⟨[], []⟩).1 = .ok 0 ∧
    (fetch_ohlcv "A" none none "1d" "yahoo" cexEnvC2 ⟨[], []⟩).2.1.heap[0]? =
      some ⟨["Close", "Adj Close"], [(.dt 2, [some 1, none]), (.dt 1, [some 2, some 2])]⟩ ∧
    ascDates (dfDates ⟨["Close", "Adj Close"],
      [(.dt 2, [some 1, none]), (.dt 1, [some 2, some 2])]⟩) = false ∧
    adjCloseNonNull ⟨["Close", "Adj Close"],
      [(.dt 2, [some 1, none]), (.dt 1, [some 2, some 2])]⟩ = false :=
  ⟨rfl, rfl, rfl, rfl⟩

theorem normalize_ok_invariant {y d : DF} (h : _normalize_df y = .ok d) :
    closeNonNull d = true ∧ d.cols.contains "Adj Close" = true := by
  rw [_normalize_df] at h
  cases hci : closeIdx (synthAdj ⟨normCols y.cols, y.rows⟩).cols with
  | none =>
    rw [dropnaClose_none (by rw [dtIndex_eq]; exact hci)] at h
    cases h
  | some i =>
    rw [dropnaClose_some (by rw [dtIndex_eq]; exact hci)] at h
    rw [dtIndex_eq] at h
    injection h with h2
    have hcols : d.cols = (synthAdj ⟨normCols y.cols, y.rows⟩).cols := by rw [← h2]
    have hrows : d.rows =
        ((synthAdj ⟨normCols y.cols, y.rows⟩ : DF).rows.map dtRow).filter
          (fun r => (r.2.getD i none).isSome) := by rw [← h2]
    have hidx : closeIdx d.cols = some i := by rw [hcols]; exact hci
    constructor
    · simp only [closeNonNull, hidx]
      rw [hrows]
      rw [List.all_eq_true]
      intro x hx
      exact (List.mem_filter.mp hx).2
    · rw [hcols]
      exact synthAdj_contains (closeIdx_contains hci)

/-- C2 amended: for a `fetch_ohlcv` call that reaches a provider (no cache
entry at all here), every Bar of the returned Series has a non-null Close and
the `Adj Close` column is always present (synthesized from Close when the raw
table lacked it); but the normalizer does not sort — row order is the
provider's — and a null inside an existing raw AdjClose column survives, so
neither ascending dates nor non-null AdjClose cells are guaranteed (see the
counterexample). -/
theorem C2_normalized_invariant (ticker : String) (startQ endQ : Option String)
    (interval provider : String) (env : Env) (heap : List DF) (st' : St) (r : Nat)
    (ev : List Event) (d' : DF)
    (h : fetch_ohlcv ticker startQ endQ interval provider env ⟨heap, []⟩ = (.ok r, st', ev))
    (hd : st'.heap[r]? = some d') :
    closeNonNull d' = true ∧ d'.cols.contains "Adj Close" = true := by
  have hcf : cacheGetFresh (St.mk heap []).cache
      (fetchKey ticker startQ endQ interval provider env) env.nowTs = none := rfl
  rw [fetch_ohlcv_miss hcf] at h
  rcases h1 : tryPolygonStep ticker (startQ.getD env.twoYearsAgo) (endQ.getD env.today)
      interval (canonProvider provider) env with ⟨res1, ev1⟩
  cases res1 with
  | error e =>
    rw [fetch_miss_step1_error h1] at h
    simp at h
  | ok df1 =>
    rw [fetch_miss_step1_ok h1] at h
    rcases h2 : tryYahooStep ticker (startQ.getD env.twoYearsAgo) (endQ.getD env.today)
        interval (canonProvider provider) df1 env with ⟨res2, ev2⟩
    rw [h2] at h
    cases res2 with
    | error e => simp at h
    | ok df2 =>
      have h' : (match _normalize_opt df2 with
          | .error e => ((.error e, (St.mk heap []), ev1 ++ ev2) :
              Except PyError Nat × St × List Event)
          | .ok d =>
            (.ok (St.mk heap []).heap.length,
             ⟨(St.mk heap []).heap ++ [d, d],
              cacheInsert (St.mk heap []).cache
                (fetchKey ticker startQ endQ interval provider env)
                ⟨env.nowTs, (St.mk heap []).heap.length + 1⟩⟩,
             ev1 ++ ev2)) = (.ok r, st', ev) := h
      cases h3 : _normalize_opt df2 with
      | error e =>
        rw [h3] at h'
        simp at h'
      | ok d =>
        rw [h3] at h'
        injection h' with ha hbc
        injection hbc with hb hc
        injection ha with ha
        have hdd : d' = d := by
          rw [← hb] at hd
          rw [← ha] at hd
          have hlook : (heap ++ [d, d])[heap.length]? = some d := by
            rw [List.getElem?_append_right (Nat.le_refl _)]
            simp
          simp only [hlook] at hd
          injection hd with hd
          exact hd.symm
        subst hdd
        cases hdf2 : df2 with
        | none =>
          rw [hdf2] at h3
          cases h3
        | some y =>
          rw [hdf2] at h3
          exact normalize_ok_invariant h3

/-! ## Concrete witness worlds -/

/-- Oracle world for the C2 witness: Yahoo returns one well-formed row. -/
def witEnvC2 : Env :=
  ⟨"", .exn (.valueError "down"), .df ⟨["Close"], [(.dt 1, [some 3])]⟩, 0, "E", "S",
   fun s => s⟩

/-- Witness for the amended C2 at a concrete world. -/
theorem C2_witness :
    closeNonNull ⟨["Close", "Adj Close"], [(.dt 1, [some 3, some 3])]⟩ = true ∧
    (⟨["Close", "Adj Close"], [(.dt 1, [some 3, some 3])]⟩ : DF).cols.contains
      "Adj Close" = true :=
  C2_normalized_invariant "A" none none "1d" "yahoo" witEnvC2 []
    ⟨[⟨["Close", "Adj Close"], [(.dt 1, [some 3, some 3])]⟩,
      ⟨["Close", "Adj Close"], [(.dt 1, [some 3, some 3])]⟩],
     cacheInsert [] (fetchKey "A" none none "1d" "yahoo" witEnvC2) ⟨0, 1⟩⟩
    0 [.yahooNet] ⟨["Close", "Adj Close"], [(.dt 1, [some 3, some 3])]⟩ rfl rfl

/-- Oracle world for the C3 witness: no Polygon key (so Polygon fails with
the credential error), Yahoo succeeds. -/
def witEnvC3 : Env :=
  ⟨"", .exn (.valueError "down"), .df ⟨["Close"], [(.dt 1, [some 3])]⟩, 0, "E", "S",
   fun s => s⟩

/-- Witness for C3 at a concrete world. -/
theorem C3_witness :
    fetch_ohlcv "A" none none "1d" "auto" witEnvC3 ⟨[], []⟩ =
      (.ok 0,
       ⟨[⟨["Close", "Adj Close"], [(.dt 1, [some 3, some 3])]⟩,
         ⟨["Close", "Adj Close"], [(.dt 1, [some 3, some 3])]⟩],
        cacheInsert [] (fetchKey "A" none none "1d" "auto" witEnvC3) ⟨0, 1⟩⟩,
       ([] ++ [.warn ("[WARN] Polygon failed (" ++
          pyMsg (.valueError "POLYGON_API_KEY not set.") ++ "); falling back to Yahoo.")])
         ++ [.yahooNet]) :=
  C3_auto_fallback "A" none none "1d" witEnvC3 ⟨[], []⟩
    (.valueError "POLYGON_API_KEY not set.") []
    ⟨["Close", "Adj Close"], [(.dt 1, [some 3, some 3])]⟩ [.yahooNet] rfl rfl rfl

/-- Oracle world for the C4 witness: a Polygon key is present but the HTTP
request raises. -/
def witEnvC4 : Env :=
  ⟨"k", .exn (.valueError "boom"), .exn (.valueError "nf"), 0, "E", "S", fun s => s⟩

/-- Witness for C4 at a concrete world. -/
theorem C4_witness :
    (fetch_ohlcv "A" none none "1d" "polygon" witEnvC4 ⟨[], []⟩ =
      (.error (.valueError "boom"), ⟨[], []⟩, [.polygonNet])) ∧
    Event.yahooNet ∉ [Event.polygonNet] :=
  C4_forced_polygon "A" none none "1d" witEnvC4 ⟨[], []⟩ (.valueError "boom")
    [.polygonNet] rfl rfl

/-- The cached DataFrame used by the C5 witness. -/
def witDF5 : DF := ⟨["Close"], [(.dt 1, [some 2])]⟩

/-- Oracle world for the fresh-hit half of the C5 witness (clock at 0). -/
def witEnvC5a : Env :=
  ⟨"", .exn (.valueError "x"), .exn (.valueError "y"), 0, "E", "S", fun s => s⟩

/-- Oracle world for the stale half of the C5 witness (clock at 1000, past
the 900-second TTL). -/
def witEnvC5b : Env :=
  ⟨"", .exn (.valueError "x"), .df ⟨["Close"], [(.dt 1, [some 2])]⟩, 1000, "E", "S",
   fun s => s⟩

/-- Cache key of the C5 witness requests (fresh world). -/
def witKeyC5a : String := fetchKey "A" none none "1d" "yahoo" witEnvC5a

/-- Cache key of the C5 witness requests (stale world). -/
def witKeyC5b : String := fetchKey "A" none none "1d" "yahoo" witEnvC5b

/-- Witness for C5: a fresh hit returns a copy with no events; a stale entry
is handled exactly like a miss and triggers the Yahoo call. -/
theorem C5_witness :
    (fetch_ohlcv "A" none none "1d" "yahoo" witEnvC5a ⟨[witDF5], [(witKeyC5a, ⟨0, 0⟩)]⟩ =
      (.ok 1, ⟨[witDF5, witDF5], [(witKeyC5a, ⟨0, 0⟩)]⟩, [])) ∧
    ((fetch_ohlcv "A" none none "1d" "yahoo" witEnvC5b ⟨[witDF5], [(witKeyC5b, ⟨0, 0⟩)]⟩ =
      fetch_miss "A" "S" "E" "1d" "yahoo" witKeyC5b witEnvC5b
        ⟨[witDF5], [(witKeyC5b, ⟨0, 0⟩)]⟩) ∧
     Event.yahooNet ∈ (fetch_ohlcv "A" none none "1d" "yahoo" witEnvC5b
        ⟨[witDF5], [(witKeyC5b, ⟨0, 0⟩)]⟩).2.2) :=
  ⟨(C5_cache_ttl "A" none none "1d" "yahoo" witEnvC5a ⟨[witDF5], [(witKeyC5a, ⟨0, 0⟩)]⟩
      ⟨0, 0⟩ witDF5 rfl rfl).1 (by decide),
   ⟨((C5_cache_ttl "A" none none "1d" "yahoo" witEnvC5b ⟨[witDF5], [(witKeyC5b, ⟨0, 0⟩)]⟩
      ⟨0, 0⟩ witDF5 rfl rfl).2 (by decide)).1,
    ((C5_cache_ttl "A" none none "1d" "yahoo" witEnvC5b ⟨[witDF5], [(witKeyC5b, ⟨0, 0⟩)]⟩
      ⟨0, 0⟩ witDF5 rfl rfl).2 (by decide)).2 rfl⟩⟩

/-- The cached DataFrame used by the C6 witness. -/
def witDF6 : DF := ⟨["Close"], [(.dt 2, [some 4])]⟩

/-- Oracle world for the C6 witness (fresh cache hit). -/
def witEnvC6 : Env :=
  ⟨"", .exn (.valueError "x"), .exn (.valueError "y"), 0, "E", "S", fun s => s⟩

/-- Cache key of the C6 witness request. -/
def witKeyC6 : String := fetchKey "A" none none "1d" "yahoo" witEnvC6

/-- Witness for C6 at a concrete world: the cached reference differs from the
returned one, so mutating the returned DataFrame leaves the cache intact. -/
theorem C6_witness :
    ∃ e', cacheGet [(witKeyC6, (⟨0, 0⟩ : CEntry))]
        (fetchKey "A" none none "1d" "yahoo" witEnvC6) = some e' ∧
      e'.ref ≠ 1 ∧ ∀ d', (([witDF6, witDF6].set 1 d'))[e'.ref]? = [witDF6, witDF6][e'.ref]? :=
  C6_defensive_copy "A" none none "1d" "yahoo" witEnvC6
    ⟨[witDF6], [(witKeyC6, ⟨0, 0⟩)]⟩ ⟨[witDF6, witDF6], [(witKeyC6, ⟨0, 0⟩)]⟩ 1 []
    (by unfold wfSt; decide) rfl

/-- Oracle world for the C10 witness. -/
def witEnvC10 : Env :=
  ⟨"", .exn (.valueError "x"), .exn (.valueError "y"), 0, "E", "S", fun s => s⟩

/-- Witness for C10 at a concrete unknown provider string. -/
theorem C10_witness :
    fetch_ohlcv "A" none none "1d" "bogus" witEnvC10 ⟨[], []⟩ =
      (.error (.attributeError "NoneType object has no attribute rename"), ⟨[], []⟩, []) :=
  C10_unknown_provider "A" none none "1d" "bogus" witEnvC10 ⟨[], []⟩
    (by decide) (by decide) (by decide) rfl
